import Mathlib

/-!
Verification of the Fitness-App reminder scheduling and delivery engine.

Shallow embedding of the Python source:
  - `migration.py` : `convert_time_format`, `migrate_schedules`
  - `email_scheduler.py` : `EmailScheduler.get_due_reminders`,
    `EmailScheduler.mark_reminder_sent`, `EmailScheduler.create_smtp_connection`,
    `EmailScheduler.process_reminder`, `EmailScheduler.check_and_send_reminders`
  - `database_service.py` : `DatabaseService.mark_reminder_as_sent`

The SQL statements are embedded as pure transformations of an explicit list of
schedule rows; the SMTP transport, the workout lookup and database update
failures are oracles passed as function parameters.
-/

/-! ### Time Normalizer (`migration.py`, `convert_time_format`)

Python's `datetime.strptime(t, "%I:%M %p")` is embedded as a character-level
parser with exactly the `_strptime` regex semantics:
`%I` = `1[0-2]|0[1-9]|[1-9]`, `%M` = `[0-5]\d|\d`, a space in the format
matches one or more whitespace characters, `%p` matches `AM`/`PM`
case-insensitively, and the whole string must be consumed. -/

/-- Python's `c in s` membership test on a string. -/
def py_contains (s : String) (c : Char) : Bool :=
  s.data.contains c

/-- Whitespace class of Python's regex `\s` (ASCII part). -/
def py_isspace (c : Char) : Prop :=
  c = ' ' ∨ c = '\t' ∨ c = '\n' ∨ c = '\r' ∨ c = '\x0b' ∨ c = '\x0c'

instance (c : Char) : Decidable (py_isspace c) := by
  unfold py_isspace; infer_instance

/-- Numeric value of a decimal digit character (code 48 is the character 0). -/
def digitVal (c : Char) : Nat := c.toNat - 48

/-- The `%I` directive: regex `1[0-2]|0[1-9]|[1-9]`, an hour from 1 to 12.
Character codes: 48 is the digit 0, 57 is the digit 9. -/
def parseHour12 : List Char → Option (Nat × List Char)
  | [] => none
  | c :: rest =>
    if c = '1' then
      match rest with
      | c2 :: rest2 =>
        if 48 ≤ c2.toNat ∧ c2.toNat ≤ 50 then some (10 + digitVal c2, rest2)
        else some (1, rest)
      | [] => some (1, [])
    else if c = '0' then
      match rest with
      | c2 :: rest2 =>
        if 49 ≤ c2.toNat ∧ c2.toNat ≤ 57 then some (digitVal c2, rest2)
        else none
      | [] => none
    else if 50 ≤ c.toNat ∧ c.toNat ≤ 57 then some (digitVal c, rest)
    else none

/-- The `%M` directive: regex `[0-5]\d|\d`, a minute from 0 to 59. -/
def parseMinute : List Char → Option (Nat × List Char)
  | [] => none
  | c :: rest =>
    match rest with
    | c2 :: rest2 =>
      if (48 ≤ c.toNat ∧ c.toNat ≤ 53) ∧ (48 ≤ c2.toNat ∧ c2.toNat ≤ 57) then
        some (10 * digitVal c + digitVal c2, rest2)
      else if 48 ≤ c.toNat ∧ c.toNat ≤ 57 then some (digitVal c, rest)
      else none
    | [] =>
      if 48 ≤ c.toNat ∧ c.toNat ≤ 57 then some (digitVal c, []) else none

/-- Greedy tail of the regex `\s+`. -/
def dropSpaces : List Char → List Char
  | [] => []
  | c :: rest => if py_isspace c then dropSpaces rest else c :: rest

/-- The regex `\s+`: at least one whitespace character, consumed greedily. -/
def skipSpaces1 : List Char → Option (List Char)
  | [] => none
  | c :: rest => if py_isspace c then some (dropSpaces rest) else none

/-- The `%p` directive at the end of the pattern: `AM`/`PM` case-insensitively,
with nothing allowed after it.  `false` is AM, `true` is PM. -/
def parseMeridiem : List Char → Option Bool
  | [c1, c2] =>
    if (c1 = 'A' ∨ c1 = 'a') ∧ (c2 = 'M' ∨ c2 = 'm') then some false
    else if (c1 = 'P' ∨ c1 = 'p') ∧ (c2 = 'M' ∨ c2 = 'm') then some true
    else none
  | _ => none

/-- `datetime.strptime(s, "%I:%M %p")`, returning the parsed
(12-hour hour, minute, is-PM) triple, or `none` for the `ValueError` case. -/
def strptime_IMp (s : String) : Option (Nat × Nat × Bool) :=
  match parseHour12 s.data with
  | none => none
  | some (h12, rest) =>
    match rest with
    | ':' :: rest2 =>
      match parseMinute rest2 with
      | none => none
      | some (m, rest3) =>
        match skipSpaces1 rest3 with
        | none => none
        | some rest4 =>
          match parseMeridiem rest4 with
          | none => none
          | some pm => some (h12, m, pm)
    | _ => none

/-- CPython's `_strptime` conversion of the `%I` hour and the `%p` flag into
the 24-hour `tm_hour` field. -/
def tm_hour (h12 : Nat) (pm : Bool) : Nat :=
  if pm then (if h12 = 12 then 12 else h12 + 12)
  else (if h12 = 12 then 0 else h12)

/-- Zero-padded two-digit decimal rendering (the `%02d`-style padding used by
`strftime` for `%H` and `%M`). -/
def pad2list (n : Nat) : List Char :=
  if n < 10 then '0' :: (Nat.repr n).data else (Nat.repr n).data

/-- `dt.strftime("%H:%M")` on a time with hour `h` and minute `m`. -/
def strftime_HM (h m : Nat) : String :=
  String.mk (pad2list h ++ ':' :: pad2list m)

/-- `migration.convert_time_format` from `migration.py`: the Time Normalizer.
Empty or colon-free strings are returned as-is; strings containing a space are
parsed as 12-hour `"%I:%M %p"` and reformatted as `"%H:%M"`, with the
`ValueError` of a failed parse caught and the input returned unchanged;
all other strings are returned unchanged. -/
def convert_time_format (time_str : String) : String :=
  if time_str = "" ∨ py_contains time_str ':' = false then time_str
  else if py_contains time_str ' ' = true then
    match strptime_IMp time_str with
    | some (h12, m, pm) => strftime_HM (tm_hour h12 pm) m
    | none => time_str
  else time_str

/-- Spec-side definition, from the ScheduleEntry invariant in the spec:
canonical time strings match the pattern of two-digit 24-hour `HH:MM`
(first character 0-2, hour at most 23, minute at most 59). -/
def spec_canonical_HHMM (s : String) : Bool :=
  match s.data with
  | [h1, h2, sep, m1, m2] =>
    decide (((h1 = '0' ∨ h1 = '1') ∧ 48 ≤ h2.toNat ∧ h2.toNat ≤ 57) ∨
            (h1 = '2' ∧ 48 ≤ h2.toNat ∧ h2.toNat ≤ 51)) &&
    decide (sep = ':') &&
    decide (48 ≤ m1.toNat ∧ m1.toNat ≤ 53) &&
    decide (48 ≤ m2.toNat ∧ m2.toNat ≤ 57)
  | _ => false

/-- Spec-side definition, from the Time Normalizer contract in the spec:
the zero-padded 24-hour equivalent of a 12-hour clock reading, where the
12-o'clock hour wraps to zero and a PM marker adds twelve. -/
def spec_to24 (h12 m : Nat) (pm : Bool) : String :=
  String.mk (pad2list (h12 % 12 + (if pm then 12 else 0)) ++ ':' :: pad2list m)

example : convert_time_format "9:05 AM" = "09:05" := by decide
example : convert_time_format "12:00 AM" = "00:00" := by decide
example : convert_time_format "12:30 PM" = "12:30" := by decide
example : convert_time_format "23:59" = "23:59" := by decide
example : convert_time_format "25:00" = "25:00" := by decide
example : convert_time_format "" = "" := by decide
example : convert_time_format "9:xx AM" = "9:xx AM" := by decide
example : strptime_IMp "11:59 pm" = some (11, 59, true) := by decide
example : strptime_IMp "12:5  Am" = some (12, 5, false) := by decide
example : strptime_IMp "13:00 PM" = none := by decide
example : spec_canonical_HHMM "25:00" = false := by decide
example : spec_canonical_HHMM "23:59" = true := by decide

/-! ### Schedule Store rows and the embedded SQL statements

A row of the `schedule` table, with the columns written by
`DatabaseService.save_schedule` plus the `is_sent` flag read and written by
the scheduler.  `created_at` and `updated_at` are epoch-millisecond values. -/

structure ScheduleRow where
  email : String
  video_id : String
  time : String
  title : String
  channel : String
  duration : Nat
  user_id : String
  is_sent : Bool
  created_at : Nat
  updated_at : Nat
deriving Repr, DecidableEq

/-- `EmailScheduler.get_due_reminders` (`email_scheduler.py`): the query
`SELECT * FROM schedule WHERE time = %s AND is_sent = FALSE`. -/
def get_due_reminders (current_time : String) (tbl : List ScheduleRow) : List ScheduleRow :=
  tbl.filter (fun r => r.time = current_time ∧ r.is_sent = false)

/-- `EmailScheduler.mark_reminder_sent` (`email_scheduler.py`): the update
`UPDATE schedule SET is_sent = TRUE WHERE email = %s AND video_id = %s`. -/
def mark_reminder_sent (email video_id : String) (tbl : List ScheduleRow) : List ScheduleRow :=
  tbl.map (fun r =>
    if r.email = email ∧ r.video_id = video_id then { r with is_sent := true } else r)

/-- `DatabaseService.mark_reminder_as_sent` (`database_service.py`): the update
`UPDATE schedule SET is_sent = TRUE WHERE email = %s`, keyed by email alone. -/
def mark_reminder_as_sent (email : String) (tbl : List ScheduleRow) : List ScheduleRow :=
  tbl.map (fun r => if r.email = email then { r with is_sent := true } else r)

/-! ### Notification Dispatcher connection retry
(`EmailScheduler.create_smtp_connection`, `email_scheduler.py`) -/

/-- `EmailScheduler.__init__`: `self.max_retries = 3`. -/
def max_retries : Nat := 3

/-- `EmailScheduler.__init__`: `self.retry_delay = 5` (seconds). -/
def retry_delay : Nat := 5

/-- Observable outcome of `create_smtp_connection`: the returned connection (or
`None`), the attempt numbers tried, and the durations of the `time.sleep`
calls made between attempts. -/
structure ConnTrace (α : Type) where
  result : Option α
  attempts : List Nat
  sleeps : List Nat
deriving Repr, DecidableEq

/-- The `for attempt in range(1, self.max_retries + 1)` loop of
`create_smtp_connection`.  `connect attempt` is the transport oracle: `some`
is a successfully established connection, `none` is a raised transport
exception.  `remaining` counts the attempts the range still holds. -/
def smtp_attempt_loop {α : Type} (connect : Nat → Option α) :
    Nat → Nat → ConnTrace α
  | _, 0 => ⟨none, [], []⟩
  | attempt, remaining + 1 =>
    match connect attempt with
    | some server => ⟨some server, [attempt], []⟩
    | none =>
      let rest := smtp_attempt_loop connect (attempt + 1) remaining
      ⟨rest.result, attempt :: rest.attempts,
        (if attempt < max_retries then [retry_delay] else []) ++ rest.sleeps⟩

/-- `EmailScheduler.create_smtp_connection`: retry loop starting at attempt 1,
returning `None` (never raising) once all attempts are exhausted. -/
def create_smtp_connection {α : Type} (connect : Nat → Option α) : ConnTrace α :=
  smtp_attempt_loop connect 1 max_retries

example : create_smtp_connection (fun _ => (none : Option Nat)) = ⟨none, [1, 2, 3], [5, 5]⟩ := by
  decide
example : create_smtp_connection (fun n => if n = 2 then some 7 else none) =
    ⟨some 7, [1, 2], [5]⟩ := by decide

/-! ### Migration/Backfill Utility (`migration.py`, `migrate_schedules`)

`migrate_schedules` takes a connection from the `DatabaseService` pool, which
is created with `autocommit=True` (`database_service.py`), and executes one
`UPDATE schedule SET time = %s WHERE email = %s AND video_id = %s` per entry
whose time the normalizer changes.  Under autocommit every successful UPDATE
is committed at execute time, the `conn.rollback()` in the per-entry `except`
has nothing to discard, and the final `conn.commit()` commits nothing
further; so the connection is modelled by threading the committed table
itself through the loop, which iterates over the snapshot of rows fetched
before it started. -/

/-- Counters returned by `migrate_schedules`. -/
structure MigStats where
  total : Nat
  converted : Nat
  failed : Nat
  unchanged : Nat
  invalid : Nat
deriving Repr, DecidableEq

/-- Parameter triple of the migration's `UPDATE schedule SET time = ...`
statement. -/
structure TimeUpdate where
  email : String
  video_id : String
  new_time : String
deriving Repr, DecidableEq

/-- Effect of one executed `UPDATE schedule SET time = %s WHERE email = %s AND
video_id = %s` once committed. -/
def apply_update (u : TimeUpdate) (tbl : List ScheduleRow) : List ScheduleRow :=
  tbl.map (fun r =>
    if r.email = u.email ∧ r.video_id = u.video_id then { r with time := u.new_time } else r)

/-- Committing a list of executed updates, in execution order. -/
def apply_updates (us : List TimeUpdate) (tbl : List ScheduleRow) : List ScheduleRow :=
  us.foldl (fun t u => apply_update u t) tbl

/-- The update an entry contributes when its time is converted. -/
def schedule_update (s : ScheduleRow) : TimeUpdate :=
  ⟨s.email, s.video_id, convert_time_format s.time⟩

/-- The `for schedule in schedules` loop of `migrate_schedules`.  `fails s`
is the oracle for the cursor raising on that entry's UPDATE.  The state is
the stats dictionary plus the current committed table: with `autocommit=True`
a successful UPDATE takes effect at execute time, and a failed one (followed
by the no-op `conn.rollback()`) leaves the table as it was. -/
def migrate_loop (fails : ScheduleRow → Bool) :
    List ScheduleRow → MigStats → List ScheduleRow → MigStats × List ScheduleRow
  | [], stats, tbl => (stats, tbl)
  | s :: rest, stats, tbl =>
    let new_time := convert_time_format s.time
    if new_time = "" ∨ new_time = s.time then
      migrate_loop fails rest { stats with unchanged := stats.unchanged + 1 } tbl
    else if fails s = true then
      migrate_loop fails rest { stats with failed := stats.failed + 1 } tbl
    else
      migrate_loop fails rest { stats with converted := stats.converted + 1 }
        (apply_update (schedule_update s) tbl)

/-- `migrate_schedules` (`migration.py`): snapshot the schedules, then run
the conversion loop over the snapshot against the live table (the trailing
`conn.commit()` commits nothing further under autocommit).  Returns the
stats and the resulting table. -/
def migrate_schedules (fails : ScheduleRow → Bool) (tbl : List ScheduleRow) :
    MigStats × List ScheduleRow :=
  let stats0 : MigStats := ⟨tbl.length, 0, 0, 0, 0⟩
  migrate_loop fails tbl stats0 tbl

/-- The updates a run commits: one per entry whose time converts and whose
own UPDATE does not raise — independent of every other entry's outcome. -/
def committed_updates (fails : ScheduleRow → Bool) : List ScheduleRow → List TimeUpdate
  | [] => []
  | s :: rest =>
    if ¬(convert_time_format s.time = "" ∨ convert_time_format s.time = s.time) ∧
        fails s = false
    then schedule_update s :: committed_updates fails rest
    else committed_updates fails rest

/-! ### Reminder Scheduler Loop
(`EmailScheduler.process_reminder` / `check_and_send_reminders`) -/

/-- Fields of a workout row read by `process_reminder` when rendering the
reminder body. -/
structure Workout where
  video_id : String
  title : String
  duration : Nat
deriving Repr, DecidableEq

/-- Oracles for the effectful collaborators of one scheduler cycle:
`workouts` is `dbs.get_workout_by_id`, `send_ok` the outcome of
`send_email`, `mark_ok` whether the `mark_reminder_sent` database update
succeeds, and `raises` an exception thrown inside `process_reminder`'s
`try` block before the workout lookup. -/
structure SchedulerEnv where
  workouts : String → Option Workout
  send_ok : ScheduleRow → Bool
  mark_ok : ScheduleRow → Bool
  raises : ScheduleRow → Bool

/-- Observable actions of one cycle. -/
inductive SchedulerEvent where
  | sendAttempt (email : String) (video_id : String)
  | markSent (email : String) (video_id : String)
  | logSkip (video_id : String)
  | logError (video_id : String)
deriving Repr, DecidableEq

/-- `EmailScheduler.process_reminder`: returns the boolean the Python method
returns, the schedule table after the entry is processed, and the emitted
events.  A missing workout is logged and the entry skipped without any send
or mark; an exception is caught, logged and reported as `False`; a successful
send is followed by `mark_reminder_sent`. -/
def process_reminder (env : SchedulerEnv) (tbl : List ScheduleRow) (r : ScheduleRow) :
    Bool × List ScheduleRow × List SchedulerEvent :=
  if env.raises r = true then (false, tbl, [.logError r.video_id])
  else
    match env.workouts r.video_id with
    | none => (false, tbl, [.logSkip r.video_id])
    | some _ =>
      if env.send_ok r = true then
        if env.mark_ok r = true then
          (true, mark_reminder_sent r.email r.video_id tbl,
            [.sendAttempt r.email r.video_id, .markSent r.email r.video_id])
        else (false, tbl, [.sendAttempt r.email r.video_id])
      else (false, tbl, [.sendAttempt r.email r.video_id])

/-- The `sum(self.process_reminder(r) for r in reminders)` iteration of one
`check_and_send_reminders` cycle: each due entry is processed in order,
threading the schedule table; returns the success count, the final table and
the concatenated events. -/
def run_cycle (env : SchedulerEnv) (tbl : List ScheduleRow) :
    List ScheduleRow → Nat × List ScheduleRow × List SchedulerEvent
  | [] => (0, tbl, [])
  | r :: rest =>
    let step := process_reminder env tbl r
    let next := run_cycle env step.2.1 rest
    ((if step.1 then 1 else 0) + next.1, next.2.1, step.2.2 ++ next.2.2)

/-- Event trace of processing one reminder; `process_reminder` emits the same
events whatever the table contents (proved below). -/
def reminder_events (env : SchedulerEnv) (r : ScheduleRow) : List SchedulerEvent :=
  (process_reminder env [] r).2.2

/-! ### Concrete rows used by witnesses and counterexamples -/

/-- Sample unsent row, recipient `a@x.com`, workout `w1`, due at 07:00. -/
def rowA : ScheduleRow :=
  ⟨"a@x.com", "w1", "07:00", "Morning Yoga", "FitChan", 600, "u1", false, 1000, 1000⟩

/-- Sample unsent row, recipient `b@x.com`, workout `w2`, due at 07:00. -/
def rowB : ScheduleRow :=
  ⟨"b@x.com", "w2", "07:00", "HIIT", "FitChan", 900, "u2", false, 1000, 1000⟩

/-- Second row of recipient `a@x.com`, for a different workout `w2`. -/
def rowA2 : ScheduleRow :=
  ⟨"a@x.com", "w2", "08:00", "Stretch", "FitChan", 300, "u1", false, 1000, 1000⟩

/-! ### Theorems for the claims -/

/-- C1: a polling cycle at time `t` returns exactly the rows whose `time`
equals `t` and whose `is_sent` flag is false, and once the loop's
`mark_reminder_sent` has set `is_sent` for an (email, workout) pair, no
subsequent poll (at any time) returns a row of that pair. -/
theorem C1_at_most_one_send (tbl : List ScheduleRow) (t t2 e v : String)
    (r r2 : ScheduleRow)
    (h2 : r2 ∈ get_due_reminders t2 (mark_reminder_sent e v tbl)) :
    (r ∈ get_due_reminders t tbl ↔ (r ∈ tbl ∧ r.time = t ∧ r.is_sent = false)) ∧
    ¬(r2.email = e ∧ r2.video_id = v) := by
  constructor
  · simp [get_due_reminders, List.mem_filter]
  · rintro ⟨he, hv⟩
    simp only [get_due_reminders, List.mem_filter, decide_eq_true_eq] at h2
    obtain ⟨hmem, _, hsent⟩ := h2
    simp only [mark_reminder_sent, List.mem_map] at hmem
    obtain ⟨r0, _, hr0⟩ := hmem
    by_cases hk : r0.email = e ∧ r0.video_id = v
    · rw [if_pos hk] at hr0
      rw [← hr0] at hsent
      simp at hsent
    · rw [if_neg hk] at hr0
      rw [← hr0] at he hv
      exact hk ⟨he, hv⟩

/-- C1 witness: concrete two-row table polled at 07:00, then re-polled after
marking `(a@x.com, w1)` sent. -/
theorem C1_witness :
    (rowA ∈ get_due_reminders "07:00" [rowA, rowB] ↔
      (rowA ∈ [rowA, rowB] ∧ rowA.time = "07:00" ∧ rowA.is_sent = false)) ∧
    ¬(rowB.email = "a@x.com" ∧ rowB.video_id = "w1") :=
  C1_at_most_one_send [rowA, rowB] "07:00" "07:00" "a@x.com" "w1" rowA rowB (by decide)

/-- C4 counterexample: `mark_reminder_sent` sets `is_sent` but leaves
`updated_at` exactly as it was (1000), contradicting the claim that the
commit step bumps `updated_at`. -/
theorem C4_counterexample :
    mark_reminder_sent "a@x.com" "w1" [rowA] = [{ rowA with is_sent := true }] ∧
    ({ rowA with is_sent := true } : ScheduleRow).updated_at = 1000 ∧
    rowA.updated_at = 1000 := by decide

/-- C4 amended: on dispatcher success the commit step sets `is_sent = true`
for the matching row, but writes no other field: every row's `updated_at`
is unchanged. -/
theorem C4_amended (e v : String) (tbl : List ScheduleRow) (r : ScheduleRow)
    (hr : r ∈ tbl) (he : r.email = e) (hv : r.video_id = v) :
    (mark_reminder_sent e v tbl).map ScheduleRow.updated_at =
      tbl.map ScheduleRow.updated_at ∧
    { r with is_sent := true } ∈ mark_reminder_sent e v tbl ∧
    ({ r with is_sent := true } : ScheduleRow).updated_at = r.updated_at := by
  refine ⟨?_, ?_, rfl⟩
  · rw [mark_reminder_sent, List.map_map]
    congr 1
    funext r0
    by_cases hk : r0.email = e ∧ r0.video_id = v
    · simp [hk]
    · simp [hk]
  · simp only [mark_reminder_sent]
    exact List.mem_map.mpr ⟨r, hr, by simp [he, hv]⟩

/-- C4 amended witness: concrete instantiation at `rowA`. -/
theorem C4_amended_witness :
    (mark_reminder_sent "a@x.com" "w1" [rowA]).map ScheduleRow.updated_at =
      [rowA].map ScheduleRow.updated_at ∧
    { rowA with is_sent := true } ∈ mark_reminder_sent "a@x.com" "w1" [rowA] ∧
    ({ rowA with is_sent := true } : ScheduleRow).updated_at = rowA.updated_at :=
  C4_amended "a@x.com" "w1" [rowA] rowA (by decide) rfl rfl

/-- C9: the store-level `mark_reminder_as_sent` is keyed by email alone —
every row whose email matches is marked sent, whatever its `video_id`, and
rows of other recipients are left untouched. -/
theorem C9_mark_by_email_only (e : String) (tbl : List ScheduleRow) (r : ScheduleRow)
    (hr : r ∈ tbl) :
    (r.email = e → { r with is_sent := true } ∈ mark_reminder_as_sent e tbl) ∧
    (r.email ≠ e → r ∈ mark_reminder_as_sent e tbl) := by
  constructor
  · intro he
    simp only [mark_reminder_as_sent]
    exact List.mem_map.mpr ⟨r, hr, by simp [he]⟩
  · intro hne
    simp only [mark_reminder_as_sent]
    exact List.mem_map.mpr ⟨r, hr, by simp [hne]⟩

/-- C9 witness: marking after dispatching `(a@x.com, w1)` also marks the row
`(a@x.com, w2)` sent. -/
theorem C9_witness :
    { rowA2 with is_sent := true } ∈ mark_reminder_as_sent "a@x.com" [rowA, rowA2] :=
  (C9_mark_by_email_only "a@x.com" [rowA, rowA2] rowA2 (by decide)).1 rfl

/-- C7: when every connection attempt raises a transport error,
`create_smtp_connection` makes exactly attempts 1, 2, 3, sleeps 5 seconds
between consecutive attempts (twice), and then returns `None` to its caller
instead of raising. -/
theorem C7_retry_policy {α : Type} (connect : Nat → Option α)
    (h : ∀ n, connect n = none) :
    create_smtp_connection connect = ⟨none, [1, 2, 3], [5, 5]⟩ := by
  simp [create_smtp_connection, smtp_attempt_loop, h, max_retries, retry_delay]

/-- C7 witness: the always-failing transport. -/
theorem C7_witness :
    create_smtp_connection (fun _ => (none : Option Nat)) = ⟨none, [1, 2, 3], [5, 5]⟩ :=
  C7_retry_policy (fun _ => none) (fun _ => rfl)

/-- C10: `convert_time_format` is total — an empty or colon-free input is
returned unchanged, and when 12-hour parsing fails (`ValueError` caught) the
original input is returned rather than the error propagating. -/
theorem C10_normalizer_total (s : String) :
    (s = "" ∨ py_contains s ':' = false → convert_time_format s = s) ∧
    (py_contains s ' ' = true → strptime_IMp s = none → convert_time_format s = s) := by
  constructor
  · intro h
    unfold convert_time_format
    rw [if_pos h]
  · intro hsp hparse
    unfold convert_time_format
    rw [hsp, hparse]
    simp

/-- C10 witness: a colon-free input and an unparseable meridiem input. -/
theorem C10_witness :
    convert_time_format "hello" = "hello" ∧ convert_time_format "9:xx AM" = "9:xx AM" :=
  ⟨(C10_normalizer_total "hello").1 (by decide),
   (C10_normalizer_total "9:xx AM").2 (by decide) (by decide)⟩

/-- C2 counterexample: `"25:00"` contains no space and does not match the
canonical pattern, yet `convert_time_format` silently passes it through
unchanged instead of failing. -/
theorem C2_counterexample :
    convert_time_format "25:00" = "25:00" ∧ spec_canonical_HHMM "25:00" = false ∧
    py_contains "25:00" ' ' = false := by decide

/-- C2 amended: the normalizer never fails on meridiem-free input — every
string containing no space is returned unchanged, canonical or not. -/
theorem C2_amended (s : String) (h : py_contains s ' ' = false) :
    convert_time_format s = s := by
  unfold convert_time_format
  split
  · rfl
  · rw [h]
    simp

/-- C2 amended witness: instantiation at `"25:00"`. -/
theorem C2_amended_witness : convert_time_format "25:00" = "25:00" :=
  C2_amended "25:00" (by decide)

/-- A parsed `%I` hour lies between 1 and 12. -/
theorem parseHour12_bounds (l : List Char) (h12 : Nat) (rest : List Char)
    (h : parseHour12 l = some (h12, rest)) : 1 ≤ h12 ∧ h12 ≤ 12 := by
  unfold parseHour12 digitVal at h
  repeat' split at h
  all_goals first
    | (rw [Option.some_inj, Prod.mk.injEq] at h; omega)
    | simp at h

/-- A parsed `%M` minute is at most 59. -/
theorem parseMinute_bounds (l : List Char) (m : Nat) (rest : List Char)
    (h : parseMinute l = some (m, rest)) : m ≤ 59 := by
  unfold parseMinute digitVal at h
  repeat' split at h
  all_goals first
    | (rw [Option.some_inj, Prod.mk.injEq] at h; omega)
    | simp at h

/-- Characterisation of Python's `in` on strings via list membership. -/
theorem py_contains_iff (s : String) (c : Char) :
    py_contains s c = true ↔ c ∈ s.data := by
  unfold py_contains
  exact List.elem_iff

/-- `parseHour12` only consumes a prefix of its input. -/
theorem parseHour12_suffix (l : List Char) (h12 : Nat) (rest : List Char)
    (h : parseHour12 l = some (h12, rest)) : ∃ pre, l = pre ++ rest := by
  unfold parseHour12 at h
  repeat' split at h
  all_goals first
    | (rw [Option.some_inj, Prod.mk.injEq] at h
       obtain ⟨h1, rfl⟩ := h
       first
         | exact ⟨[], rfl⟩
         | exact ⟨[_], rfl⟩
         | exact ⟨[_, _], rfl⟩)
    | simp at h

/-- A successful `strptime` bounds the parsed fields and forces the input to
contain a colon and to be nonempty. -/
theorem strptime_IMp_facts (s : String) (h12 m : Nat) (pm : Bool)
    (h : strptime_IMp s = some (h12, m, pm)) :
    (1 ≤ h12 ∧ h12 ≤ 12) ∧ m ≤ 59 ∧ py_contains s ':' = true ∧ s ≠ "" := by
  unfold strptime_IMp at h
  cases hph : parseHour12 s.data with
  | none => rw [hph] at h; simp at h
  | some v =>
    obtain ⟨h12', rest⟩ := v
    simp only [hph] at h
    split at h
    next rest2 =>
      cases hpm : parseMinute rest2 with
      | none => simp only [hpm] at h; simp at h
      | some w =>
        obtain ⟨m', rest3⟩ := w
        simp only [hpm] at h
        cases hsk : skipSpaces1 rest3 with
        | none => simp only [hsk] at h; simp at h
        | some rest4 =>
          simp only [hsk] at h
          cases hme : parseMeridiem rest4 with
          | none => simp only [hme] at h; simp at h
          | some pm' =>
            simp only [hme, Option.some_inj, Prod.mk.injEq] at h
            obtain ⟨rfl, rfl, rfl⟩ := h
            obtain ⟨pre, hpre⟩ := parseHour12_suffix s.data h12' (':' :: rest2) hph
            refine ⟨parseHour12_bounds s.data h12' (':' :: rest2) hph,
              parseMinute_bounds rest2 m' rest3 hpm, ?_, ?_⟩
            · rw [py_contains_iff, hpre]
              simp
            · intro hs
              rw [hs] at hph
              simp [parseHour12] at hph
    next => simp at h

/-- C5: every meridiem input accepted by the 12-hour parser is normalized to
its zero-padded 24-hour equivalent (hour taken modulo 12, plus 12 for PM),
covering midnight `12:xx AM → 00:xx` and noon `12:xx PM → 12:xx`; the spec's
four reference conversions hold, and an already-canonical input is returned
unchanged. -/
theorem C5_meridiem_conversion (s : String) (h12 m : Nat) (pm : Bool)
    (hp : strptime_IMp s = some (h12, m, pm)) (hsp : py_contains s ' ' = true) :
    convert_time_format s = spec_to24 h12 m pm ∧
    convert_time_format "9:05 AM" = "09:05" ∧
    convert_time_format "12:00 AM" = "00:00" ∧
    convert_time_format "12:30 PM" = "12:30" ∧
    convert_time_format "23:59" = "23:59" := by
  refine ⟨?_, by decide, by decide, by decide, by decide⟩
  obtain ⟨⟨hge, hle⟩, hm, hcolon, hne⟩ := strptime_IMp_facts s h12 m pm hp
  unfold convert_time_format
  rw [if_neg (by simp [hne, hcolon]), if_pos hsp]
  simp only [hp]
  unfold strftime_HM spec_to24
  have ht : tm_hour h12 pm = h12 % 12 + (if pm then 12 else 0) := by
    unfold tm_hour
    cases pm <;> simp <;> split_ifs <;> omega
  rw [ht]

/-- C5 witness: instantiation at `"9:05 AM"`, parsed as 9:05 AM. -/
theorem C5_witness :
    convert_time_format "9:05 AM" = spec_to24 9 5 false ∧
    convert_time_format "9:05 AM" = "09:05" ∧
    convert_time_format "12:00 AM" = "00:00" ∧
    convert_time_format "12:30 PM" = "12:30" ∧
    convert_time_format "23:59" = "23:59" :=
  C5_meridiem_conversion "9:05 AM" 9 5 false (by decide) (by decide)

/-- `Nat.toDigitsCore` prepends its output to the accumulator. -/
theorem toDigitsCore_append (f : Nat) : ∀ (n : Nat) (acc : List Char),
    Nat.toDigitsCore 10 f n acc = Nat.toDigitsCore 10 f n [] ++ acc := by
  induction f with
  | zero => intro n acc; simp [Nat.toDigitsCore]
  | succ f ih =>
    intro n acc
    simp only [Nat.toDigitsCore]
    by_cases h : n / 10 = 0
    · simp [h]
    · rw [if_neg h, if_neg h, ih (n / 10) (Nat.digitChar (n % 10) :: acc),
        ih (n / 10) [Nat.digitChar (n % 10)]]
      simp

/-- Digit characters of values below ten are decimal digit characters. -/
theorem digitChar_isDigit (d : Nat) (h : d < 10) : (Nat.digitChar d).isDigit = true := by
  have hall : ∀ e, e < 10 → (Nat.digitChar e).isDigit = true := by decide
  exact hall d h

/-- Every character `Nat.toDigitsCore` emits over base 10 is a digit. -/
theorem toDigitsCore_digits (f : Nat) :
    ∀ (n : Nat) (acc : List Char), (∀ c ∈ acc, c.isDigit = true) →
    ∀ c ∈ Nat.toDigitsCore 10 f n acc, c.isDigit = true := by
  induction f with
  | zero => intro n acc hacc; simpa [Nat.toDigitsCore] using hacc
  | succ f ih =>
    intro n acc hacc c hc
    simp only [Nat.toDigitsCore] at hc
    by_cases h : n / 10 = 0
    · rw [if_pos h] at hc
      rcases List.mem_cons.mp hc with rfl | h2
      · exact digitChar_isDigit (n % 10) (Nat.mod_lt _ (by norm_num))
      · exact hacc c h2
    · rw [if_neg h] at hc
      refine ih (n / 10) (Nat.digitChar (n % 10) :: acc) ?_ c hc
      intro c2 hc2
      rcases List.mem_cons.mp hc2 with rfl | h3
      · exact digitChar_isDigit (n % 10) (Nat.mod_lt _ (by norm_num))
      · exact hacc c2 h3

/-- `Nat.repr` produces only decimal digit characters. -/
theorem repr_data_digits (n : Nat) : ∀ c ∈ (Nat.repr n).data, c.isDigit = true := by
  intro c hc
  have hd : (Nat.repr n).data = Nat.toDigitsCore 10 (n + 1) n [] := rfl
  rw [hd] at hc
  exact toDigitsCore_digits (n + 1) n [] (by simp) c hc

/-- `Nat.repr` is never the empty string. -/
theorem repr_data_ne_nil (n : Nat) : (Nat.repr n).data ≠ [] := by
  have hd : (Nat.repr n).data = Nat.toDigitsCore 10 (n + 1) n [] := rfl
  rw [hd]
  simp only [Nat.toDigitsCore]
  by_cases h : n / 10 = 0
  · simp [h]
  · rw [if_neg h, toDigitsCore_append]
    simp

/-- Zero-padded renderings consist of digit characters only. -/
theorem pad2list_digits (n : Nat) : ∀ c ∈ pad2list n, c.isDigit = true := by
  intro c hc
  unfold pad2list at hc
  split at hc
  · rcases List.mem_cons.mp hc with rfl | h2
    · decide
    · exact repr_data_digits n c h2
  · exact repr_data_digits n c hc

/-- A formatted `"%H:%M"` output is nonempty. -/
theorem strftime_HM_ne_empty (h m : Nat) : strftime_HM h m ≠ "" := by
  intro hx
  have hdata : pad2list h ++ ':' :: pad2list m = [] := congrArg String.data hx
  simp at hdata

/-- A formatted `"%H:%M"` output contains a colon. -/
theorem strftime_HM_colon (h m : Nat) : py_contains (strftime_HM h m) ':' = true := by
  rw [py_contains_iff]
  show ':' ∈ pad2list h ++ ':' :: pad2list m
  simp

/-- A formatted `"%H:%M"` output contains no space. -/
theorem strftime_HM_no_space (h m : Nat) : py_contains (strftime_HM h m) ' ' = false := by
  have hnm : ¬ (' ' ∈ (strftime_HM h m).data) := by
    show ¬ (' ' ∈ pad2list h ++ ':' :: pad2list m)
    intro hx
    rcases List.mem_append.mp hx with h1 | h2
    · exact absurd (pad2list_digits h ' ' h1) (by decide)
    · rcases List.mem_cons.mp h2 with he | h3
      · exact absurd he (by decide)
      · exact absurd (pad2list_digits m ' ' h3) (by decide)
  cases hpc : py_contains (strftime_HM h m) ' '
  · rfl
  · exact absurd ((py_contains_iff _ _).mp hpc) hnm

/-- When the normalizer changes a string, its output is a `"%H:%M"` rendering. -/
theorem convert_changed_shape (x : String) (hx : convert_time_format x ≠ x) :
    ∃ h m, convert_time_format x = strftime_HM h m := by
  by_cases h1 : x = "" ∨ py_contains x ':' = false
  · refine absurd ?_ hx
    unfold convert_time_format
    rw [if_pos h1]
  · by_cases h2 : py_contains x ' ' = true
    · cases hp : strptime_IMp x with
      | none =>
        refine absurd ?_ hx
        unfold convert_time_format
        rw [if_neg h1, if_pos h2]
        simp only [hp]
      | some v =>
        obtain ⟨h12, m, pm⟩ := v
        refine ⟨tm_hour h12 pm, m, ?_⟩
        unfold convert_time_format
        rw [if_neg h1, if_pos h2]
        simp only [hp]
    · refine absurd ?_ hx
      unfold convert_time_format
      rw [if_neg h1, if_neg h2]

/-- A `"%H:%M"` rendering is a fixed point of the normalizer. -/
theorem convert_strftime_fix (h m : Nat) :
    convert_time_format (strftime_HM h m) = strftime_HM h m := by
  have h1 : ¬(strftime_HM h m = "" ∨ py_contains (strftime_HM h m) ':' = false) := by
    rintro (he | hcol)
    · exact strftime_HM_ne_empty h m he
    · rw [strftime_HM_colon h m] at hcol
      simp at hcol
  have h2 : ¬(py_contains (strftime_HM h m) ' ' = true) := by
    rw [strftime_HM_no_space h m]
    simp
  unfold convert_time_format
  rw [if_neg h1, if_neg h2]

/-- The normalizer is idempotent. -/
theorem convert_time_format_idem (x : String) :
    convert_time_format (convert_time_format x) = convert_time_format x := by
  by_cases hx : convert_time_format x = x
  · rw [hx]
    exact hx
  · obtain ⟨h, m, heq⟩ := convert_changed_shape x hx
    rw [heq]
    exact convert_strftime_fix h m

/-- The migration loop's final table is the starting table with exactly the
run's committed updates applied, in order: under autocommit each successful
UPDATE persists at execute time, and failures change nothing. -/
theorem migrate_loop_table (fails : ScheduleRow → Bool) :
    ∀ (ss : List ScheduleRow) (stats : MigStats) (tbl : List ScheduleRow),
    (migrate_loop fails ss stats tbl).2 =
      apply_updates (committed_updates fails ss) tbl := by
  intro ss
  induction ss with
  | nil =>
    intro stats tbl
    simp [migrate_loop, committed_updates, apply_updates]
  | cons s rest ih =>
    intro stats tbl
    simp only [migrate_loop, committed_updates]
    by_cases hc : convert_time_format s.time = "" ∨ convert_time_format s.time = s.time
    · rw [if_pos hc, ih, if_neg (by tauto)]
    · rw [if_neg hc]
      by_cases hfs : fails s = true
      · rw [if_pos hfs, ih, if_neg]
        rintro ⟨-, h2⟩
        rw [hfs] at h2
        simp at h2
      · have hfs' : fails s = false := by
          revert hfs
          cases fails s <;> simp
        rw [if_neg hfs, ih, if_pos ⟨hc, hfs'⟩]
        rfl

/-- `committed_updates` distributes over concatenated runs of entries. -/
theorem committed_updates_append (fails : ScheduleRow → Bool) (a b : List ScheduleRow) :
    committed_updates fails (a ++ b) =
      committed_updates fails a ++ committed_updates fails b := by
  induction a with
  | nil => rfl
  | cons s rest ih =>
    simp only [List.cons_append, committed_updates]
    split_ifs <;> simp [ih]

/-- An entry whose UPDATE raises commits nothing itself. -/
theorem committed_updates_cons_fail (fails : ScheduleRow → Bool) (sf : ScheduleRow)
    (post : List ScheduleRow) (hf : fails sf = true) :
    committed_updates fails (sf :: post) = committed_updates fails post := by
  simp only [committed_updates]
  rw [if_neg]
  rintro ⟨-, h2⟩
  rw [hf] at h2
  simp at h2

/-- Migration rows with convertible 12-hour times, used by the C3 witness. -/
def rowM1 : ScheduleRow :=
  ⟨"a@x.com", "w1", "9:00 AM", "Yoga", "FitChan", 600, "u1", false, 1000, 1000⟩

/-- Second migration row, whose UPDATE fails in the witness run. -/
def rowM2 : ScheduleRow :=
  ⟨"b@x.com", "w2", "8:30 AM", "HIIT", "FitChan", 900, "u2", false, 1000, 1000⟩

/-- C3: migration write-back is per-entry transactional — the pool is created
with `autocommit=True`, so each entry's UPDATE commits at execute time.  The
final table applies exactly the committed updates to the starting table, and
an entry whose UPDATE fails drops out of the run's committed updates without
disturbing the conversions of the entries before or after it: earlier
successful conversions remain persisted. -/
theorem C3_per_entry_commit (fails : ScheduleRow → Bool)
    (tbl pre post : List ScheduleRow) (sf : ScheduleRow) (hf : fails sf = true) :
    (migrate_schedules fails tbl).2 = apply_updates (committed_updates fails tbl) tbl ∧
    committed_updates fails (pre ++ sf :: post) =
      committed_updates fails pre ++ committed_updates fails post := by
  constructor
  · simp only [migrate_schedules]
    rw [migrate_loop_table]
  · rw [committed_updates_append, committed_updates_cons_fail fails sf post hf]

/-- C3 witness: a two-entry run in which the second entry's UPDATE fails; the
first entry's already-committed conversion is untouched. -/
theorem C3_witness :
    (migrate_schedules (fun r => r.email == "b@x.com") [rowM1, rowM2]).2 =
      apply_updates (committed_updates (fun r => r.email == "b@x.com") [rowM1, rowM2])
        [rowM1, rowM2] ∧
    committed_updates (fun r => r.email == "b@x.com") ([rowM1] ++ rowM2 :: []) =
      committed_updates (fun r => r.email == "b@x.com") [rowM1] ++
        committed_updates (fun r => r.email == "b@x.com") [] :=
  C3_per_entry_commit (fun r => r.email == "b@x.com") [rowM1, rowM2] [rowM1] [] rowM2
    (by decide)

example :
    (migrate_schedules (fun r => r.email == "b@x.com") [rowM1, rowM2]).2 =
      [{ rowM1 with time := "09:00" }, rowM2] := by decide
example :
    (migrate_schedules (fun r => r.email == "b@x.com") [rowM1, rowM2]).1.converted = 1 ∧
    (migrate_schedules (fun r => r.email == "b@x.com") [rowM1, rowM2]).1.failed = 1 := by
  decide

/-- With no database failures, every converting entry's update is committed. -/
theorem committed_updates_nofail (ss : List ScheduleRow) :
    committed_updates (fun _ => false) ss =
      (ss.filter (fun s =>
        ¬(convert_time_format s.time = "" ∨ convert_time_format s.time = s.time))).map
        schedule_update := by
  induction ss with
  | nil => rfl
  | cons s rest ih =>
    simp only [committed_updates, List.filter_cons]
    by_cases hc : ¬(convert_time_format s.time = "" ∨ convert_time_format s.time = s.time)
    · rw [if_pos ⟨hc, by simp⟩]
      simp [hc, ih]
    · rw [if_neg (by tauto)]
      simp [hc, ih]

/-- Rows whose time is a normalizer fixed point stay fixed points under
committing updates whose new times are fixed points, provided every
non-fixed-point row is the target of at least one update. -/
theorem apply_updates_fix (us : List TimeUpdate) :
    ∀ (tbl : List ScheduleRow),
    (∀ u ∈ us, convert_time_format u.new_time = u.new_time) →
    (∀ r ∈ tbl, convert_time_format r.time = r.time ∨
      ∃ u ∈ us, u.email = r.email ∧ u.video_id = r.video_id) →
    ∀ r ∈ apply_updates us tbl, convert_time_format r.time = r.time := by
  induction us with
  | nil =>
    intro tbl hu ht r hr
    rcases ht r hr with h | ⟨u, hu2, _⟩
    · exact h
    · exact absurd hu2 (List.not_mem_nil u)
  | cons u us ih =>
    intro tbl hu ht r hr
    have step : apply_updates (u :: us) tbl = apply_updates us (apply_update u tbl) := rfl
    rw [step] at hr
    refine ih (apply_update u tbl) (fun u2 h2 => hu u2 (by simp [h2])) ?_ r hr
    intro r2 hr2
    simp only [apply_update, List.mem_map] at hr2
    obtain ⟨r0, hr0, heq⟩ := hr2
    by_cases hk : r0.email = u.email ∧ r0.video_id = u.video_id
    · rw [if_pos hk] at heq
      left
      rw [← heq]
      exact hu u (by simp)
    · rw [if_neg hk] at heq
      rcases ht r0 hr0 with h | ⟨u2, hu2mem, hu2k⟩
      · left
        rw [← heq]
        exact h
      · rcases List.mem_cons.mp hu2mem with rfl | h2
        · exact absurd ⟨hu2k.1.symm, hu2k.2.symm⟩ hk
        · right
          refine ⟨u2, h2, ?_⟩
          rw [← heq]
          exact hu2k

/-- After a failure-free migration run, every row's time is a fixed point of
the normalizer. -/
theorem migrate_nofail_rows_fix (tbl : List ScheduleRow) :
    ∀ r ∈ (migrate_schedules (fun _ => false) tbl).2,
      convert_time_format r.time = r.time := by
  have hmain : (migrate_schedules (fun _ => false) tbl).2 =
      apply_updates (committed_updates (fun _ => false) tbl) tbl := by
    simp only [migrate_schedules]
    rw [migrate_loop_table]
  rw [hmain]
  refine apply_updates_fix (committed_updates (fun _ => false) tbl) tbl ?_ ?_
  · intro u hu
    rw [committed_updates_nofail] at hu
    obtain ⟨s, hs, rfl⟩ := List.mem_map.mp hu
    exact convert_time_format_idem s.time
  · intro r hr
    by_cases hfix : convert_time_format r.time = r.time
    · exact Or.inl hfix
    · right
      refine ⟨schedule_update r, ?_, rfl, rfl⟩
      rw [committed_updates_nofail]
      refine List.mem_map_of_mem schedule_update (List.mem_filter.mpr ⟨hr, ?_⟩)
      have hne : convert_time_format r.time ≠ "" := by
        intro h0
        obtain ⟨h, m, heq⟩ := convert_changed_shape r.time hfix
        rw [heq] at h0
        exact strftime_HM_ne_empty h m h0
      simp [hfix, hne]

/-- A loop over rows whose times are all fixed points only counts
`unchanged`, and leaves the table alone. -/
theorem migrate_loop_unchanged (fails : ScheduleRow → Bool) :
    ∀ (ss : List ScheduleRow),
    (∀ s ∈ ss, convert_time_format s.time = s.time) →
    ∀ (stats : MigStats) (tbl : List ScheduleRow),
    migrate_loop fails ss stats tbl =
      ({ stats with unchanged := stats.unchanged + ss.length }, tbl) := by
  intro ss
  induction ss with
  | nil =>
    intro h stats tbl
    simp [migrate_loop]
  | cons s rest ih =>
    intro h stats tbl
    simp only [migrate_loop]
    rw [if_pos (Or.inr (h s (by simp)))]
    rw [ih (fun t ht => h t (by simp [ht])) _ tbl]
    simp only [Prod.mk.injEq, MigStats.mk.injEq, List.length_cons, true_and, and_true]
    omega

/-- A migration run over a table of normalizer fixed points converts nothing:
it reports everything unchanged and leaves the table as it was. -/
theorem migrate_schedules_unchanged (fails : ScheduleRow → Bool) (tbl : List ScheduleRow)
    (h : ∀ s ∈ tbl, convert_time_format s.time = s.time) :
    migrate_schedules fails tbl = (⟨tbl.length, 0, 0, 0 + tbl.length, 0⟩, tbl) := by
  simp only [migrate_schedules]
  rw [migrate_loop_unchanged fails tbl h]

/-- C6: immediately after a failure-free migration run, a second run (under
any update-failure oracle) converts nothing: every entry counts as
`unchanged`, `converted = 0`, and the table is untouched. -/
theorem C6_idempotent (tbl : List ScheduleRow) (fails2 : ScheduleRow → Bool) :
    (migrate_schedules fails2 ((migrate_schedules (fun _ => false) tbl).2)).1.converted = 0 ∧
    (migrate_schedules fails2 ((migrate_schedules (fun _ => false) tbl).2)).1.unchanged =
      (migrate_schedules fails2 ((migrate_schedules (fun _ => false) tbl).2)).1.total ∧
    (migrate_schedules fails2 ((migrate_schedules (fun _ => false) tbl).2)).2 =
      (migrate_schedules (fun _ => false) tbl).2 := by
  have hfix := migrate_nofail_rows_fix tbl
  rw [migrate_schedules_unchanged fails2 ((migrate_schedules (fun _ => false) tbl).2) hfix]
  simp

/-- The events `process_reminder` emits do not depend on the table state it
threads: the oracles alone decide them. -/
theorem process_reminder_events_indep (env : SchedulerEnv) (tbl : List ScheduleRow)
    (r : ScheduleRow) :
    (process_reminder env tbl r).2.2 = reminder_events env r := by
  unfold reminder_events process_reminder
  split_ifs <;> first
    | rfl
    | (cases env.workouts r.video_id <;> rfl)

/-- One cycle's event trace decomposes entry by entry: every due entry
contributes its own events, independently of what happened to the entries
before it. -/
theorem run_cycle_events (env : SchedulerEnv) (tbl : List ScheduleRow)
    (rs : List ScheduleRow) :
    (run_cycle env tbl rs).2.2 = (rs.map (reminder_events env)).flatten := by
  induction rs generalizing tbl with
  | nil => rfl
  | cons r rest ih =>
    simp only [run_cycle, List.map_cons, List.flatten_cons]
    rw [process_reminder_events_indep, ih]

/-- C8: per-entry fault isolation — the cycle's event trace is the
concatenation of each due entry's own trace (so a failure inside one entry
never suppresses the processing of later entries), and a missing workout
produces exactly one logged skip, no send, no mark, a `False` result, and an
untouched table (`is_sent` not set). -/
theorem C8_per_entry_isolation (env : SchedulerEnv) (tbl : List ScheduleRow)
    (rs : List ScheduleRow) (r : ScheduleRow)
    (hw : env.workouts r.video_id = none) (hra : env.raises r = false) :
    (run_cycle env tbl rs).2.2 = (rs.map (reminder_events env)).flatten ∧
    reminder_events env r = [SchedulerEvent.logSkip r.video_id] ∧
    (process_reminder env tbl r).1 = false ∧
    (process_reminder env tbl r).2.1 = tbl := by
  refine ⟨run_cycle_events env tbl rs, ?_, ?_, ?_⟩ <;>
    simp [reminder_events, process_reminder, hw, hra]

/-- Oracle set where every workout lookup fails and nothing else goes wrong. -/
def envMissing : SchedulerEnv :=
  ⟨fun _ => none, fun _ => true, fun _ => true, fun _ => false⟩

/-- C8 witness: a two-entry cycle under the missing-workout oracle. -/
theorem C8_witness :
    (run_cycle envMissing [rowA, rowB] [rowA, rowB]).2.2 =
      ([rowA, rowB].map (reminder_events envMissing)).flatten ∧
    reminder_events envMissing rowA = [SchedulerEvent.logSkip rowA.video_id] ∧
    (process_reminder envMissing [rowA, rowB] rowA).1 = false ∧
    (process_reminder envMissing [rowA, rowB] rowA).2.1 = [rowA, rowB] :=
  C8_per_entry_isolation envMissing [rowA, rowB] [rowA, rowB] rowA rfl rfl
